import Mathlib

/-!
Verification of the PTW UNIDOS / PTW DIAMENTOR dosemeter drivers and the
Parker GV6 motor-controller driver from the pymeasure repository.

Replies and commands are modelled as lists of characters; each Python string
operation used by the drivers (`startswith`, `replace`, `strip`, `partition`,
slicing, `%`-formatting, `int()`, `re.search`) is embedded as a Lean function
on `List Char`.
-/

/-- Python `s.startswith(p)` on character lists. -/
def beginsWith : List Char → List Char → Bool
  | [], _ => true
  | _ :: _, [] => false
  | p :: ps, c :: cs => (p == c) && beginsWith ps cs

/-- Python whitespace characters stripped by `str.strip()`. -/
def pyIsSpace (c : Char) : Bool :=
  (c == ' ') || (c == '\t') || (c == '\n') || (c == '\r')
    || (c.toNat == 11) || (c.toNat == 12)

/-- Python `s.strip()`: drop whitespace from both ends. -/
def pyStrip (s : List Char) : List Char :=
  ((s.dropWhile pyIsSpace).reverse.dropWhile pyIsSpace).reverse

/-- The third component of Python `s.partition(';')`: everything after the
first `';'`, or the empty string when there is none. -/
def afterFirstSemi : List Char → List Char
  | [] => []
  | c :: rest => if c = ';' then rest else afterFirstSemi rest

/-- Python `s.replace(';', ',')`. -/
def replaceSemis (s : List Char) : List Char :=
  s.map (fun c => if c = ';' then ',' else c)

/-- Association-list lookup for the static error tables. -/
def lookupCode (code : List Char) : List (List Char × List Char) → Option (List Char)
  | [] => none
  | (k, v) :: rest => if code = k then some v else lookupCode code rest

/-- Outcome of a driver `read`: a normal response, a `ValueError`
(`DeviceError`) with its message, or a `ConnectionError` (`ProtocolError`)
with its message. -/
inductive ReadResult where
  | ok (response : List Char)
  | deviceError (msg : List Char)
  | protocolError (msg : List Char)
deriving DecidableEq

/-- Static error table of `ptwUNIDOS.read` (zero-padded two-digit codes). -/
def unidosErrors : List (List Char × List Char) :=
  [("E01".data, "Syntax error, unknown command".data),
   ("E02".data, "Command not allowed in this context".data),
   ("E03".data, "Command not allowed at this moment".data),
   ("E08".data, "Parameter error: value invalid/out of range or wrong format of the parameter".data),
   ("E12".data, "Abort by user".data),
   ("E16".data, "Command to long".data),
   ("E17".data, "Maximum number of parameters exceeded".data),
   ("E18".data, "Empty parameter field".data),
   ("E19".data, "Wrong number of parameters".data),
   ("E20".data, "No user rights, no write permission".data),
   ("E21".data, "Required parameter not found (eg. detector)".data),
   ("E24".data, "Memory error: data could not be stored".data),
   ("E28".data, "Unknown parameter".data),
   ("E29".data, "Wrong parameter type".data),
   ("E33".data, "Measurement module defect".data),
   ("E51".data, "Undefined command".data),
   ("E52".data, "Wrong parameter type of the HTTP response".data),
   ("E54".data, "HTTP request denied".data),
   ("E58".data, "Wrong valueof the HTTP response".data),
   ("E96".data, "Timeout".data)]

/-- Static error table of `ptwDIAMENTOR.read` (one- or two-digit codes,
not zero padded). -/
def diamentorErrors : List (List Char × List Char) :=
  [("E1".data, "Syntax error, unknown command".data),
   ("E4".data, "Charge overflow".data),
   ("E5".data, "Max. input current exceeded.".data),
   ("E6".data, "Chamber voltage is out of range.".data),
   ("E7".data, "Parameter is write protected.".data),
   ("E9".data, "Parameter is out of range.".data),
   ("E23".data, "EEPROM reading/writing error".data),
   ("E24".data, "DIAMENTOR is not calibrated electrically.".data),
   ("E25".data, "Input-Buffer-Overrun".data),
   ("E26".data, "Firmware malfunction".data)]

/-- Error code extracted by `ptwUNIDOS.read`:
`got.replace(';', '').strip()`. -/
def unidosCode (got : List Char) : List Char :=
  pyStrip (got.filter (fun c => c != ';'))

/-- `ptwUNIDOS.read` applied to the raw reply line `got`. -/
def ptwUNIDOS_read (got : List Char) : ReadResult :=
  if beginsWith "E".data got then
    match lookupCode (unidosCode got) unidosErrors with
    | some msg => .deviceError (unidosCode got ++ ", ".data ++ msg)
    | none => .protocolError ("Unknown read error. Received: ".data ++ got)
  else
    .ok (replaceSemis (afterFirstSemi got))

/-- `ptwDIAMENTOR.read` applied to the raw reply line `got`. -/
def ptwDIAMENTOR_read (got : List Char) : ReadResult :=
  if beginsWith "E".data got then
    match lookupCode got diamentorErrors with
    | some msg => .deviceError (got ++ ", ".data ++ msg)
    | none => .protocolError ("Unknown read error. Received: ".data ++ got)
  else
    .ok got

/-- ASCII decimal digit test, as used by Python `\d` (ASCII) and `int()`. -/
def isDigitCh (c : Char) : Bool := (48 ≤ c.toNat) && (c.toNat ≤ 57)

/-- Value of a list of decimal digit characters. -/
def digitsToNat (ds : List Char) : Nat :=
  ds.foldl (fun a c => 10 * a + (c.toNat - 48)) 0

/-- Decimal digit characters of `n`, most significant first (helper with
structural fuel so that the kernel can evaluate it). -/
def natToCharsAux : Nat → Nat → List Char → List Char
  | 0, _, acc => acc
  | fuel + 1, n, acc =>
    let d := Char.ofNat (48 + n % 10)
    if n < 10 then d :: acc else natToCharsAux fuel (n / 10) (d :: acc)

/-- Python `str(n)` for a natural number. -/
def natToChars (n : Nat) : List Char := natToCharsAux (n + 1) n []

/-- Python `str(i)` for an integer. -/
def intToChars (i : Int) : List Char :=
  if i < 0 then '-' :: natToChars i.natAbs else natToChars i.natAbs

/-- Left-pad with `'0'` to the given width. -/
def padZeros (width : Nat) (s : List Char) : List Char :=
  List.replicate (width - s.length) '0' ++ s

/-- Python `'%0Nd' % i`: zero-padded fixed-width decimal; for a negative
number the sign precedes the padding. -/
def pyFmt0 (width : Nat) (i : Int) : List Char :=
  if i < 0 then '-' :: padZeros (width - 1) (natToChars i.natAbs)
  else padZeros width (natToChars i.natAbs)

/-- Python `int(s)`: strip whitespace, optional sign, then decimal digits;
`none` models the `ValueError` raised on any other shape. -/
def pyInt (s : List Char) : Option Int :=
  match pyStrip s with
  | '-' :: ds =>
      if !ds.isEmpty && ds.all isDigitCh then some (-(digitsToNat ds : Int)) else none
  | '+' :: ds =>
      if !ds.isEmpty && ds.all isDigitCh then some (digitsToNat ds : Int) else none
  | t => if !t.isEmpty && t.all isDigitCh then some (digitsToNat t : Int) else none

/-- Python `s.split(',')` on character lists. -/
def splitOnComma (s : List Char) : List (List Char) :=
  match s with
  | [] => [[]]
  | c :: rest =>
    match splitOnComma rest with
    | [] => if c = ',' then [[], []] else [[c]]
    | g :: gs => if c = ',' then [] :: g :: gs else (c :: g) :: gs

/-- Modelled from the spec: `pymeasure.instruments.validators.truncated_range`
is not under src/. Per §4.3 and the glossary, the range validator used by
these accessors "clamps/truncates to a closed numeric range": values below
the minimum become the minimum, values above the maximum become the maximum. -/
def truncated_range (value lo hi : Int) : Int :=
  if value < lo then lo else if value > hi then hi else value

/-- Outcome of a property set operation: either the list of command strings
written to the transport, or a `ValidationError` raised before any write. -/
inductive SetResult where
  | written (cmds : List (List Char))
  | validationError
deriving DecidableEq

/-- Commands observed on the transport for a set outcome; a raised
`ValidationError` leaves the transport untouched. -/
def writesOf : SetResult → List (List Char)
  | .written cs => cs
  | .validationError => []

/-- Modelled from the spec: the property-descriptor framework
(`Instrument.control`) is not under src/. Per §4.3 and §7, a set operation
applies the declared validator first and only then writes the single
formatted command; the strict discrete-set validator rejects values not in
the enumerated allowed list, raising `ValidationError` before any write. -/
def controlSetStrict (allowed : List (List Char)) (format : List Char → List Char)
    (v : List Char) : SetResult :=
  if v ∈ allowed then .written [format v] else .validationError

/-- Modelled from the spec: the property-descriptor framework
(`Instrument.control`) is not under src/. Per §4.3, a set operation with the
truncating range validator clamps the value into the closed range and then
writes the single formatted command. -/
def controlSetTruncated (lo hi : Int) (format : Int → List Char) (v : Int) : SetResult :=
  .written [format (truncated_range v lo hi)]

/-- Set side of `ptwDIAMENTOR.pressure`: validator `truncated_range` over
`[500, 1500]`, set format `"PRE%04d"`. -/
def pressureSet (v : Int) : SetResult :=
  controlSetTruncated 500 1500 (fun n => "PRE".data ++ pyFmt0 4 n) v

/-- Set side of `ptwUNIDOS.voltage`: validator `truncated_range` over
`[-400, 400]`, set format `"HV;%d"`. -/
def voltageSet (v : Int) : SetResult :=
  controlSetTruncated (-400) 400 (fun n => "HV;".data ++ intToChars n) v

/-- Set side of `ptwDIAMENTOR.temperature`: validator `truncated_range` over
`[0, 70]`, set format `"TMPA%02d"`. -/
def temperatureSet (v : Int) : SetResult :=
  controlSetTruncated 0 70 (fun n => "TMPA".data ++ pyFmt0 2 n) v

/-- Get side of `ptwDIAMENTOR.temperature`: the reply passes
`ptwDIAMENTOR.read`, then `get_process` applies `int(v[4:])`.
The framework step (apply `get_process` to the validated reply) is modelled
from the spec (§2 control flow); the read check and the transform are from
the source. -/
def temperatureGet (reply : List Char) : Option Int :=
  match ptwDIAMENTOR_read reply with
  | .ok r => pyInt (r.drop 4)
  | _ => none

/-- Set side of `ptwUNIDOS.range`: strict discrete set
`['VERY_LOW', 'LOW', 'MEDIUM', 'HIGH']`, set format `"RGE;%s"`. -/
def rangeSet (v : List Char) : SetResult :=
  controlSetStrict ["VERY_LOW".data, "LOW".data, "MEDIUM".data, "HIGH".data]
    (fun s => "RGE;".data ++ s) v

/-- Set side of `ptwUNIDOS.autostart_level`: strict discrete set
`['LOW', 'MEDIUM', 'HIGH']`, set format `"ASL;%s"`. -/
def autostartLevelSet (v : List Char) : SetResult :=
  controlSetStrict ["LOW".data, "MEDIUM".data, "HIGH".data]
    (fun s => "ASL;".data ++ s) v

/-- Wire string written by setting `ptwUNIDOS.write_enabled`: `set_process`
maps `True` to `''` and `False` to `';0'`, spliced into the format `"TOK%s"`. -/
def writeEnabledSet (v : Bool) : List Char :=
  "TOK".data ++ (if v then [] else ";0".data)

/-- Query command of the `ptwUNIDOS.write_enabled` getter. -/
def writeEnabledGetCommand : List Char := "TOK;1".data

/-- Validated response of `ptwUNIDOS.read` on a non-error reply: the echoed
command is discarded and semicolons become commas. -/
def unidosValidated (reply : List Char) : List Char :=
  replaceSemis (afterFirstSemi reply)

/-- Get side of `ptwUNIDOS.write_enabled`: the reply passes
`ptwUNIDOS.read`, the framework splits the validated response on the
normalized separator (modelled from the spec, §4.2), and `get_process`
returns `v[1] == 'true'`; a missing field models Python's `IndexError`. -/
def writeEnabledGet (reply : List Char) : Option Bool :=
  match ptwUNIDOS_read reply with
  | .ok r =>
    match (splitOnComma r).get? 1 with
    | some f => some (f == "true".data)
    | none => none
  | _ => none

/-- `ParkerGV6.degrees_per_count = 0.00045` (90 deg per 200,000 counts),
modelled exactly as a rational. -/
def degrees_per_count : ℚ := 45 / 100000

/-- Python `int()` applied to a number: truncation toward zero. -/
def pyTrunc (q : ℚ) : ℤ := if 0 ≤ q then ⌊q⌋ else -⌊-q⌋

/-- Count setpoint written by the `ParkerGV6.angle` setter:
`int(angle * degrees_per_count**-1)`. -/
def angleSetCounts (a : ℚ) : ℤ := pyTrunc (a * degrees_per_count⁻¹)

/-- Angle computed by the `ParkerGV6.angle` getter from a reported count:
`position * degrees_per_count`. -/
def angleOfCounts (counts : ℤ) : ℚ := (counts : ℚ) * degrees_per_count

/-- Whether a string starts with a decimal digit. -/
def headIsDigit : List Char → Bool
  | [] => false
  | d :: _ => isDigitCh d

/-- Match of the regex `-?\d+` anchored at the start of `s`: the greedy
optionally-signed digit run, or `none` when there is no digit there. -/
def matchIntAt : List Char → Option (List Char)
  | [] => none
  | c :: rest =>
    if c = '-' then
      if headIsDigit rest then some ('-' :: rest.takeWhile isDigitCh) else none
    else if isDigitCh c then some (c :: rest.takeWhile isDigitCh) else none

/-- Scanner for `re.search(r'(?<=TAG)-?\d+', s)`: walk the string left to
right keeping the reversed prefix `rpre`; at each position whose preceding
characters end with the tag (`tagR` is the reversed tag), try `-?\d+`. -/
def goSearch (tagR rpre s : List Char) : Option (List Char) :=
  match s with
  | [] => none
  | c :: rest =>
    if beginsWith tagR rpre then
      match matchIntAt (c :: rest) with
      | some m => some m
      | none => goSearch tagR (c :: rpre) rest
    else goSearch tagR (c :: rpre) rest

/-- `re.search(r'(?<=TAG)-?\d+', s)`, returning the matched text. -/
def reSearchTag (tag s : List Char) : Option (List Char) :=
  goSearch tag.reverse [] s

/-- Python `int(m)` for text matched by `-?\d+`. -/
def charsToInt (s : List Char) : Int :=
  match s with
  | '-' :: rest => -(digitsToNat rest : Int)
  | _ => (digitsToNat s : Int)

/-- `ParkerGV6.position` as a function of the raw `TPE` reply:
`int(match)` when `(?<=TPE)-?\d+` matches, else `None`. -/
def gv6Position (reply : List Char) : Option Int :=
  (reSearchTag "TPE".data reply).map charsToInt

/-- `ParkerGV6.position_error` as a function of the raw `TPER` reply. -/
def gv6PositionError (reply : List Char) : Option Int :=
  (reSearchTag "TPER".data reply).map charsToInt

/-- `ParkerGV6.is_moving`: `position is None`. -/
def gv6IsMoving (reply : List Char) : Bool :=
  (gv6Position reply).isNone

/-- `ParkerGV6.angle` getter: `position * degrees_per_count` when the
position parses, else `None`. -/
def gv6Angle (reply : List Char) : Option ℚ :=
  (gv6Position reply).map (fun n => (n : ℚ) * degrees_per_count)

/-- Text matched by `-?\d+`: an optional leading minus sign followed by a
nonempty run of digits. -/
def signedRun (m : List Char) : Bool :=
  match m with
  | [] => false
  | c :: cs =>
    if c = '-' then !cs.isEmpty && cs.all isDigitCh
    else isDigitCh c && cs.all isDigitCh

/-- Modelled from the spec: the bit-flag decoder (§4.2) has no source under
src/. Given an integer flag word and a fixed ordered flag table — where
`none` marks a reserved/undefined bit position — it returns the descriptions
whose corresponding bit is set, preserving declaration order and skipping
the reserved positions. `i` is the bit index of the first table entry. -/
def decodeFlags (word : Nat) : List (Option (List Char)) → Nat → List (List Char)
  | [], _ => []
  | none :: rest, i => decodeFlags word rest (i + 1)
  | some d :: rest, i =>
    (if word.testBit i then [d] else []) ++ decodeFlags word rest (i + 1)

/-- Independent rendering of "the substring after the first `';'`": drop
everything up to and including the first separator, by index arithmetic. -/
def dropThroughFirstSemi (s : List Char) : List Char :=
  if ';' ∈ s then s.drop ((s.takeWhile (fun c => c != ';')).length + 1) else []

/-- Substring containment (Python `in`). -/
def containsSeq (pat s : List Char) : Bool :=
  match s with
  | [] => pat.isEmpty
  | _ :: rest => beginsWith pat s || containsSeq pat rest

theorem afterFirstSemi_eq (s : List Char) :
    afterFirstSemi s = dropThroughFirstSemi s := by
  induction s with
  | nil => simp [afterFirstSemi, dropThroughFirstSemi]
  | cons c rest ih =>
    simp only [afterFirstSemi]
    by_cases hc : c = ';'
    · subst hc
      simp [dropThroughFirstSemi, List.takeWhile_cons]
    · rw [if_neg hc, ih]
      have hmem : (';' ∈ c :: rest) ↔ (';' ∈ rest) :=
        ⟨fun h => (List.mem_cons.mp h).resolve_left (fun h1 => hc h1.symm),
         fun h => List.mem_cons_of_mem _ h⟩
      have hne : (c != ';') = true := by simpa using hc
      simp only [dropThroughFirstSemi, hmem, List.takeWhile_cons, hne]
      by_cases hm : ';' ∈ rest
      · simp [hm]
      · simp [hm]

/-- C1: for every reply beginning with the error sentinel `'E'`, the UNIDOS
driver extracts the code by removing `';'` and stripping whitespace while the
DIAMENTOR driver uses the line itself; a code present in the static table
raises `DeviceError` with message "code, table-text", and an absent code
raises `ProtocolError`. -/
theorem ptw_error_sentinel_classification (got : List Char)
    (h : beginsWith "E".data got = true) :
    ((∀ msg, lookupCode (unidosCode got) unidosErrors = some msg →
        ptwUNIDOS_read got = .deviceError (unidosCode got ++ ", ".data ++ msg)) ∧
     (lookupCode (unidosCode got) unidosErrors = none →
        ptwUNIDOS_read got
          = .protocolError ("Unknown read error. Received: ".data ++ got))) ∧
    ((∀ msg, lookupCode got diamentorErrors = some msg →
        ptwDIAMENTOR_read got = .deviceError (got ++ ", ".data ++ msg)) ∧
     (lookupCode got diamentorErrors = none →
        ptwDIAMENTOR_read got
          = .protocolError ("Unknown read error. Received: ".data ++ got))) := by
  refine ⟨⟨?_, ?_⟩, ⟨?_, ?_⟩⟩
  · intro msg hm; simp [ptwUNIDOS_read, h, hm]
  · intro hm; simp [ptwUNIDOS_read, h, hm]
  · intro msg hm; simp [ptwDIAMENTOR_read, h, hm]
  · intro hm; simp [ptwDIAMENTOR_read, h, hm]

theorem ptw_error_sentinel_classification_witness :
    ptwUNIDOS_read "E01".data
      = .deviceError (unidosCode "E01".data ++ ", ".data
          ++ "Syntax error, unknown command".data) :=
  (ptw_error_sentinel_classification "E01".data (by decide)).1.1
    "Syntax error, unknown command".data (by decide)

/-- C2 counterexample: the reply `E09` is not a key of either driver's table
(`ptwDIAMENTOR` keys the message "Parameter is out of range." under `E9`,
and `ptwUNIDOS` has no `E09` entry), so both drivers raise
`ProtocolError` (ConnectionError), not `DeviceError`. -/
theorem e09_raises_protocol_error :
    ptwUNIDOS_read "E09".data
      = .protocolError "Unknown read error. Received: E09".data ∧
    ptwDIAMENTOR_read "E09".data
      = .protocolError "Unknown read error. Received: E09".data :=
  ⟨by decide, by decide⟩

/-- C2 amended: for the reply line `E9`, `ptwDIAMENTOR.read` raises
`DeviceError` whose message contains "Parameter is out of range.";
the reply `E09` instead raises `ProtocolError` in both drivers. -/
theorem e9_parameter_out_of_range :
    ptwDIAMENTOR_read "E9".data
      = .deviceError "E9, Parameter is out of range.".data ∧
    containsSeq "Parameter is out of range.".data
      "E9, Parameter is out of range.".data = true :=
  ⟨by decide, by decide⟩

/-- C3: for every reply that does not begin with `'E'`, `ptwUNIDOS.read`
returns normally: the echoed command up to and including the first `';'` is
discarded and every remaining `';'` is replaced by `','`. -/
theorem unidos_read_nonerror (got : List Char)
    (h : beginsWith "E".data got = false) :
    ptwUNIDOS_read got = .ok (replaceSemis (dropThroughFirstSemi got)) := by
  simp [ptwUNIDOS_read, h, afterFirstSemi_eq]

theorem unidos_read_nonerror_witness :
    ptwUNIDOS_read "MV;1;2".data
      = .ok (replaceSemis (dropThroughFirstSemi "MV;1;2".data)) :=
  unidos_read_nonerror "MV;1;2".data (by decide)

/-- C4 counterexample: both accessors declare `truncated_range`, which clamps
instead of rejecting — setting min−1 or max+1 does not fail validation but
writes the boundary wire string. -/
theorem range_validator_clamps_counterexample :
    pressureSet 499 = .written ["PRE0500".data] ∧
    pressureSet 1501 = .written ["PRE1500".data] ∧
    voltageSet (-401) = .written ["HV;-400".data] ∧
    voltageSet 401 = .written ["HV;400".data] :=
  ⟨by decide, by decide, by decide, by decide⟩

/-- C4 amended: setting the boundary values min and max succeeds and
produces the wire string encoding that boundary; values outside the range
(in particular min−1 and max+1) are clamped by `truncated_range` to the
nearest boundary and produce that boundary's wire string rather than
failing validation. -/
theorem range_accessor_boundaries :
    (pressureSet 500 = .written ["PRE0500".data] ∧
     pressureSet 1500 = .written ["PRE1500".data] ∧
     voltageSet (-400) = .written ["HV;-400".data] ∧
     voltageSet 400 = .written ["HV;400".data]) ∧
    (∀ v : Int, v < 500 → pressureSet v = pressureSet 500) ∧
    (∀ v : Int, 1500 < v → pressureSet v = pressureSet 1500) ∧
    (∀ v : Int, v < -400 → voltageSet v = voltageSet (-400)) ∧
    (∀ v : Int, 400 < v → voltageSet v = voltageSet 400) := by
  refine ⟨⟨by decide, by decide, by decide, by decide⟩, ?_, ?_, ?_, ?_⟩ <;> intro v hv
  · have ht : truncated_range v 500 1500 = 500 := by
      unfold truncated_range; rw [if_pos hv]
    simp only [pressureSet, controlSetTruncated, ht]
    decide
  · have ht : truncated_range v 500 1500 = 1500 := by
      unfold truncated_range; rw [if_neg (by omega), if_pos (by omega)]
    simp only [pressureSet, controlSetTruncated, ht]
    decide
  · have ht : truncated_range v (-400) 400 = -400 := by
      unfold truncated_range; rw [if_pos hv]
    simp only [voltageSet, controlSetTruncated, ht]
    decide
  · have ht : truncated_range v (-400) 400 = 400 := by
      unfold truncated_range; rw [if_neg (by omega), if_pos (by omega)]
    simp only [voltageSet, controlSetTruncated, ht]
    decide

theorem range_accessor_boundaries_witness :
    pressureSet 499 = pressureSet 500 :=
  range_accessor_boundaries.2.1 499 (by decide)

/-- C5: assigning a value outside the declared discrete set of
`ptwUNIDOS.range` or `ptwUNIDOS.autostart_level` raises `ValidationError`
and no command is written to the transport. -/
theorem strict_set_rejects_before_write :
    (∀ v, v ∉ ["VERY_LOW".data, "LOW".data, "MEDIUM".data, "HIGH".data] →
      rangeSet v = .validationError ∧ writesOf (rangeSet v) = []) ∧
    (∀ v, v ∉ ["LOW".data, "MEDIUM".data, "HIGH".data] →
      autostartLevelSet v = .validationError ∧
        writesOf (autostartLevelSet v) = []) := by
  constructor <;> intro v hv <;>
    simp [rangeSet, autostartLevelSet, controlSetStrict, hv, writesOf]

theorem strict_set_rejects_before_write_witness :
    rangeSet "FOO".data = .validationError ∧
      writesOf (rangeSet "FOO".data) = [] :=
  strict_set_rejects_before_write.1 "FOO".data (by decide)

/-- C6: setting `ptwDIAMENTOR.temperature` to `30` writes exactly `TMPA30`,
and the getter given the reply `TMPA30` returns the integer `30`. -/
theorem diamentor_temperature_roundtrip_30 :
    temperatureSet 30 = .written ["TMPA30".data] ∧
    temperatureGet "TMPA30".data = some 30 :=
  ⟨by decide, by decide⟩

/-- C7: `ptwUNIDOS.write_enabled` writes `TOK` for `True` and `TOK;0` for
`False`, queries with `TOK;1`, and its getter returns `True` exactly when
the second field of the validated reply is the string `true`. -/
theorem unidos_write_enabled_protocol :
    writeEnabledSet true = "TOK".data ∧
    writeEnabledSet false = "TOK;0".data ∧
    writeEnabledGetCommand = "TOK;1".data ∧
    (∀ reply, beginsWith "E".data reply = false →
      (writeEnabledGet reply = some true ↔
        (splitOnComma (unidosValidated reply)).get? 1 = some "true".data)) := by
  refine ⟨by decide, by decide, rfl, ?_⟩
  intro reply h
  have hr : ptwUNIDOS_read reply = .ok (unidosValidated reply) := by
    simp [ptwUNIDOS_read, h, unidosValidated]
  have hg : writeEnabledGet reply =
      match (splitOnComma (unidosValidated reply)).get? 1 with
      | some f => some (f == "true".data)
      | none => none := by
    unfold writeEnabledGet
    rw [hr]
  rw [hg]
  cases hf : (splitOnComma (unidosValidated reply)).get? 1 with
  | none => simp
  | some f => simp [beq_iff_eq]

theorem unidos_write_enabled_protocol_witness :
    writeEnabledGet "TOK;1;true".data = some true ↔
      (splitOnComma (unidosValidated "TOK;1;true".data)).get? 1
        = some "true".data :=
  unidos_write_enabled_protocol.2.2.2 "TOK;1;true".data (by decide)

theorem pyTrunc_sub_lt_one (q : ℚ) : |(pyTrunc q : ℚ) - q| < 1 := by
  have floor_bound : ∀ r : ℚ, |(⌊r⌋ : ℚ) - r| < 1 := by
    intro r
    rw [abs_sub_lt_iff]
    constructor
    · have := Int.floor_le r; linarith
    · have := Int.sub_one_lt_floor r; linarith
  unfold pyTrunc
  by_cases h : 0 ≤ q
  · rw [if_pos h]; exact floor_bound q
  · rw [if_neg h]
    have heq : ((-⌊-q⌋ : ℤ) : ℚ) - q = -((⌊-q⌋ : ℚ) - -q) := by push_cast; ring
    rw [heq, abs_neg]
    exact floor_bound (-q)

/-- C8: the `ParkerGV6.angle` setter writes the count setpoint
`int(a / 0.00045)` (the code's `a * degrees_per_count**-1` equals
`a / degrees_per_count` exactly), and getting the angle back from a device
reporting that count returns `int(a / 0.00045) * 0.00045`, within one count
of the requested angle: `|result - a| < 0.00045`. -/
theorem parker_angle_roundtrip (a : ℚ) :
    angleSetCounts a = pyTrunc (a / degrees_per_count) ∧
    angleOfCounts (angleSetCounts a)
      = (pyTrunc (a / degrees_per_count) : ℚ) * degrees_per_count ∧
    |angleOfCounts (angleSetCounts a) - a| < degrees_per_count := by
  have hc : (0 : ℚ) < degrees_per_count := by norm_num [degrees_per_count]
  have h1 : angleSetCounts a = pyTrunc (a / degrees_per_count) := by
    unfold angleSetCounts
    rw [div_eq_mul_inv]
  refine ⟨h1, by rw [h1]; rfl, ?_⟩
  unfold angleOfCounts
  rw [h1]
  have ha : a / degrees_per_count * degrees_per_count = a :=
    div_mul_cancel₀ a (ne_of_gt hc)
  calc |(pyTrunc (a / degrees_per_count) : ℚ) * degrees_per_count - a|
      = |((pyTrunc (a / degrees_per_count) : ℚ) - a / degrees_per_count)
          * degrees_per_count| := by rw [sub_mul, ha]
    _ = |(pyTrunc (a / degrees_per_count) : ℚ) - a / degrees_per_count|
          * degrees_per_count := by rw [abs_mul, abs_of_pos hc]
    _ < 1 * degrees_per_count :=
        mul_lt_mul_of_pos_right (pyTrunc_sub_lt_one _) hc
    _ = degrees_per_count := one_mul _

theorem decodeFlags_eq_filterMap (word : Nat)
    (table : List (Option (List Char))) (i : Nat) :
    decodeFlags word table i =
      (table.enumFrom i).filterMap
        (fun p => match p.2 with
          | some d => if word.testBit p.1 then some d else none
          | none => none) := by
  induction table generalizing i with
  | nil => rfl
  | cons e rest ih =>
    cases e with
    | none => simp [decodeFlags, List.enumFrom, List.filterMap_cons, ih]
    | some d =>
      by_cases hb : word.testBit i <;>
        simp [decodeFlags, List.enumFrom, List.filterMap_cons, hb, ih]

/-- C9: the bit-flag decoder returns exactly the descriptions whose bit is
set, in declaration order, skipping reserved (`none`) positions — it equals
a filterMap over the index-enumerated table; concretely, decoding flag word
`5` against the table `[A, B, C]` yields `[A, C]`. -/
theorem bitflag_decode_spec :
    (∀ (word : Nat) (table : List (Option (List Char))) (i : Nat),
      decodeFlags word table i =
        (table.enumFrom i).filterMap
          (fun p => match p.2 with
            | some d => if word.testBit p.1 then some d else none
            | none => none)) ∧
    (∀ A B C : List Char,
      decodeFlags 5 [some A, some B, some C] 0 = [A, C]) := by
  refine ⟨decodeFlags_eq_filterMap, ?_⟩
  intro A B C
  have h0 : Nat.testBit 5 0 = true := rfl
  have h1 : Nat.testBit 5 1 = false := rfl
  have h2 : Nat.testBit 5 2 = true := rfl
  simp [decodeFlags, h0, h1, h2]

theorem beginsWith_iff : ∀ (p s : List Char),
    beginsWith p s = true ↔ ∃ t, s = p ++ t := by
  intro p
  induction p with
  | nil => intro s; simp [beginsWith]
  | cons a ps ih =>
    intro s
    cases s with
    | nil => simp [beginsWith]
    | cons c cs =>
      simp only [beginsWith, Bool.and_eq_true, beq_iff_eq, ih cs,
        List.cons_append]
      constructor
      · rintro ⟨rfl, t, rfl⟩; exact ⟨t, rfl⟩
      · rintro ⟨t, ht⟩
        injection ht with h1 h2
        exact ⟨h1.symm, t, h2⟩

theorem head_dropWhile_false (p : Char → Bool) :
    ∀ (l : List Char) (d : Char), (l.dropWhile p).head? = some d → p d = false := by
  intro l
  induction l with
  | nil => intro d h; simp [List.dropWhile] at h
  | cons c rest ih =>
    intro d h
    by_cases hc : p c
    · rw [List.dropWhile_cons, if_pos hc] at h
      exact ih d h
    · rw [List.dropWhile_cons, if_neg hc] at h
      simp only [List.head?_cons, Option.some.injEq] at h
      subst h
      exact Bool.eq_false_iff.mpr hc

theorem matchIntAt_sound {s m : List Char} (h : matchIntAt s = some m) :
    ∃ v, s = m ++ v ∧ signedRun m = true ∧
      (∀ d, v.head? = some d → isDigitCh d = false) := by
  cases s with
  | nil => simp [matchIntAt] at h
  | cons c rest =>
    simp only [matchIntAt] at h
    by_cases hc : c = '-'
    · rw [if_pos hc] at h
      cases rest with
      | nil => rw [headIsDigit] at h; simp at h
      | cons d rest2 =>
        rw [headIsDigit] at h
        by_cases hd : isDigitCh d
        · rw [if_pos hd] at h
          injection h with hm
          subst hm
          subst hc
          refine ⟨(d :: rest2).dropWhile isDigitCh, ?_, ?_, ?_⟩
          · simp [List.takeWhile_append_dropWhile]
          · have hne : (List.takeWhile isDigitCh (d :: rest2)).isEmpty = false := by
              simp [List.takeWhile_cons, hd]
            have hall : (List.takeWhile isDigitCh (d :: rest2)).all isDigitCh = true := by
              rw [List.all_eq_true]
              intro x hx
              exact List.mem_takeWhile_imp hx
            simp [signedRun, hne, hall]
          · intro e he
            exact head_dropWhile_false isDigitCh (d :: rest2) e he
        · rw [if_neg hd] at h; cases h
    · rw [if_neg hc] at h
      by_cases hdc : isDigitCh c
      · rw [if_pos hdc] at h
        injection h with hm
        subst hm
        refine ⟨rest.dropWhile isDigitCh, ?_, ?_, ?_⟩
        · simp [List.takeWhile_append_dropWhile]
        · simp only [signedRun, if_neg hc, Bool.and_eq_true]
          constructor
          · exact hdc
          · rw [List.all_eq_true]
            intro x hx
            exact List.mem_takeWhile_imp hx
        · intro e he
          exact head_dropWhile_false isDigitCh rest e he
      · rw [if_neg hdc] at h; cases h

theorem matchIntAt_complete {m : List Char} (v : List Char)
    (h : signedRun m = true) : matchIntAt (m ++ v) ≠ none := by
  cases m with
  | nil => simp [signedRun] at h
  | cons c cs =>
    rw [signedRun] at h
    by_cases hc : c = '-'
    · rw [if_pos hc] at h
      subst hc
      rw [Bool.and_eq_true] at h
      obtain ⟨hne, hall⟩ := h
      cases cs with
      | nil => simp at hne
      | cons d cs2 =>
        have hd : isDigitCh d = true := by
          rw [List.all_eq_true] at hall
          exact hall d (by simp)
        simp [matchIntAt, headIsDigit, hd]
    · rw [if_neg hc] at h
      rw [Bool.and_eq_true] at h
      obtain ⟨hdc, _⟩ := h
      simp [matchIntAt, hc, hdc]

theorem goSearch_sound (tagR : List Char) :
    ∀ (s rpre m : List Char), goSearch tagR rpre s = some m →
      ∃ u v, s = u ++ m ++ v ∧ beginsWith tagR (u.reverse ++ rpre) = true ∧
        matchIntAt (m ++ v) = some m := by
  intro s
  induction s with
  | nil => intro rpre m h; simp [goSearch] at h
  | cons c rest ih =>
    intro rpre m h
    rw [goSearch] at h
    by_cases hb : beginsWith tagR rpre = true
    · rw [if_pos hb] at h
      cases hm : matchIntAt (c :: rest) with
      | some m0 =>
        rw [hm] at h
        injection h with hmm
        subst hmm
        obtain ⟨v, hv, _, _⟩ := matchIntAt_sound hm
        refine ⟨[], v, by simpa using hv, by simpa using hb, ?_⟩
        rw [← hv]
        exact hm
      | none =>
        rw [hm] at h
        obtain ⟨u, v, h1, h2, h3⟩ := ih (c :: rpre) m h
        refine ⟨c :: u, v, by simp [h1], ?_, h3⟩
        simpa [List.reverse_cons, List.append_assoc] using h2
    · rw [if_neg hb] at h
      obtain ⟨u, v, h1, h2, h3⟩ := ih (c :: rpre) m h
      refine ⟨c :: u, v, by simp [h1], ?_, h3⟩
      simpa [List.reverse_cons, List.append_assoc] using h2

theorem goSearch_none (tagR : List Char) :
    ∀ (s rpre : List Char), goSearch tagR rpre s = none →
      ∀ u v, s = u ++ v → beginsWith tagR (u.reverse ++ rpre) = true →
        matchIntAt v = none := by
  intro s
  induction s with
  | nil =>
    intro rpre h u v huv hb
    have hv : v = [] := by
      cases u with
      | nil => exact huv.symm
      | cons x xs => simp at huv
    subst hv
    rfl
  | cons c rest ih =>
    intro rpre h u v huv hb
    rw [goSearch] at h
    have hrec : goSearch tagR (c :: rpre) rest = none := by
      by_cases hbb : beginsWith tagR rpre = true
      · rw [if_pos hbb] at h
        cases hm : matchIntAt (c :: rest) with
        | some m0 => rw [hm] at h; cases h
        | none => rw [hm] at h; exact h
      · rw [if_neg hbb] at h; exact h
    cases u with
    | nil =>
      simp only [List.nil_append] at huv
      subst huv
      simp only [List.reverse_nil, List.nil_append] at hb
      rw [if_pos hb] at h
      cases hm : matchIntAt (c :: rest) with
      | some m0 => rw [hm] at h; cases h
      | none => rfl
    | cons c2 u2 =>
      have hc2 : c2 = c ∧ rest = u2 ++ v := by
        have h4 := huv
        simp only [List.cons_append] at h4
        injection h4 with ha hbb2
        exact ⟨ha.symm, hbb2⟩
      obtain ⟨ha, hrest⟩ := hc2
      refine ih (c :: rpre) hrec u2 v hrest ?_
      rw [← ha]
      simpa [List.reverse_cons, List.append_assoc] using hb

theorem reSearchTag_sound (tag reply m : List Char)
    (h : reSearchTag tag reply = some m) :
    ∃ pre post, reply = pre ++ tag ++ m ++ post ∧ signedRun m = true ∧
      (∀ d, post.head? = some d → isDigitCh d = false) := by
  obtain ⟨u, v, h1, h2, h3⟩ := goSearch_sound tag.reverse reply [] m h
  rw [List.append_nil, beginsWith_iff] at h2
  obtain ⟨t, ht⟩ := h2
  have hu : u = t.reverse ++ tag := by
    have h5 := congrArg List.reverse ht
    simpa [List.reverse_append] using h5
  obtain ⟨w, hw, hsr, hd⟩ := matchIntAt_sound h3
  have hvw : w = v := (List.append_cancel_left hw.symm)
  subst hvw
  refine ⟨t.reverse, w, ?_, hsr, hd⟩
  rw [h1, hu]

theorem reSearchTag_none (tag reply : List Char)
    (h : reSearchTag tag reply = none) :
    ∀ pre m post, reply = pre ++ tag ++ m ++ post → signedRun m = false := by
  intro pre m post hdec
  by_contra hsr
  have hsr2 : signedRun m = true := by
    cases hx : signedRun m with
    | true => rfl
    | false => exact absurd hx hsr
  have hnone := goSearch_none tag.reverse reply [] h (pre ++ tag) (m ++ post)
    (by rw [hdec]; simp [List.append_assoc])
    (by rw [List.append_nil, beginsWith_iff]
        exact ⟨pre.reverse, by simp [List.reverse_append]⟩)
  exact matchIntAt_complete post hsr2 hnone

/-- C10: `ParkerGV6.position` and `ParkerGV6.position_error` are total on
every reply: each returns the integer of the optionally-signed digit run
that immediately follows the echoed mnemonic (`TPE` resp. `TPER`) when the
regex matches, and `None` when no such run occurs anywhere in the reply;
`is_moving` is `True` exactly when the `TPE` reply has no match, and
`angle` is `None` in exactly that same case. -/
theorem parker_reply_decoding_total (reply : List Char) :
    ((∀ n, gv6Position reply = some n →
        ∃ pre m post, reply = pre ++ "TPE".data ++ m ++ post ∧
          signedRun m = true ∧
          (∀ d, post.head? = some d → isDigitCh d = false) ∧
          n = charsToInt m) ∧
     (gv6Position reply = none →
        ∀ pre m post, reply = pre ++ "TPE".data ++ m ++ post →
          signedRun m = false)) ∧
    ((∀ n, gv6PositionError reply = some n →
        ∃ pre m post, reply = pre ++ "TPER".data ++ m ++ post ∧
          signedRun m = true ∧
          (∀ d, post.head? = some d → isDigitCh d = false) ∧
          n = charsToInt m) ∧
     (gv6PositionError reply = none →
        ∀ pre m post, reply = pre ++ "TPER".data ++ m ++ post →
          signedRun m = false)) ∧
    (gv6IsMoving reply = true ↔ gv6Position reply = none) ∧
    (gv6Angle reply = none ↔ gv6Position reply = none) := by
  refine ⟨⟨?_, ?_⟩, ⟨?_, ?_⟩, ?_, ?_⟩
  · intro n hn
    rw [gv6Position, Option.map_eq_some'] at hn
    obtain ⟨m, hm, hcast⟩ := hn
    obtain ⟨pre, post, h1, h2, h3⟩ := reSearchTag_sound "TPE".data reply m hm
    exact ⟨pre, m, post, h1, h2, h3, hcast.symm⟩
  · intro hn
    rw [gv6Position, Option.map_eq_none'] at hn
    exact reSearchTag_none "TPE".data reply hn
  · intro n hn
    rw [gv6PositionError, Option.map_eq_some'] at hn
    obtain ⟨m, hm, hcast⟩ := hn
    obtain ⟨pre, post, h1, h2, h3⟩ := reSearchTag_sound "TPER".data reply m hm
    exact ⟨pre, m, post, h1, h2, h3, hcast.symm⟩
  · intro hn
    rw [gv6PositionError, Option.map_eq_none'] at hn
    exact reSearchTag_none "TPER".data reply hn
  · cases hp : gv6Position reply <;> simp [gv6IsMoving, hp]
  · cases hp : gv6Position reply <;> simp [gv6Angle, hp]

theorem parker_reply_decoding_total_witness :
    signedRun "xy".data = false :=
  (parker_reply_decoding_total "abTPExy".data).1.2 (by decide)
    "ab".data "xy".data [] (by decide)
